import Mathlib

/-!
Shallow embedding of `src/batch_convert.py` (`convert_pdf_to_md`): a batch
converter that walks an input directory of PDF files, skips those whose
Markdown output already exists, POSTs each remaining file to a conversion
API, and writes the returned Markdown text to the output directory.

The filesystem of the output directory is modelled as an association list
from file names to contents; the external world (the HTTP collaborator and
the exceptions Python may raise while handling one document) is modelled as
an environment oracle per document.  The run is a fold of the per-document
step over the enumerated list of PDF stems, producing a trace of observable
events (requests issued, files written, log lines printed).
-/

namespace BatchConvert

/-- The configured API address (`API_URL` in the source). -/
def API_URL : String := "http://100.80.150.48:7917/api/convert"

/-- `timeout=600` on the conversion POST (source line 79). -/
def POST_TIMEOUT : Nat := 600

/-- `timeout=60` on the secondary Markdown GET (source line 94). -/
def GET_TIMEOUT : Nat := 60

/-- The `data` object of a successful JSON response body:
`markdownContent` and `markdownUrl` are each optionally present
(`result['data'].get(...)` on source lines 86 and 90). -/
structure RespData where
  markdownContent : Option String
  markdownUrl : Option String
deriving DecidableEq, Repr

/-- The parsed JSON response body: `success` is the truthiness of
`result.get('success')` (line 84); `data` is `none` when the `data` key is
missing, in which case `result['data']` raises `KeyError` (line 86). -/
structure RespBody where
  success : Bool
  data : Option RespData
deriving DecidableEq, Repr

/-- Outcome of the conversion POST (source line 79): either an exception is
raised (`requests.exceptions.ConnectionError` or any other `Exception`,
both caught at lines 125–131), or a response arrives with a status code,
raw text, and a body; `body = none` models `response.json()` raising on a
malformed body (line 83). -/
inductive PostOutcome where
  | connError
  | otherExn
  | resp (status : Nat) (bodyText : String) (body : Option RespBody)
deriving DecidableEq, Repr

/-- Outcome of the secondary GET on `markdownUrl` (source line 94): an
exception (caught by the inner handler at lines 99–100) or a response with
a status code and text. -/
inductive GetOutcome where
  | exn
  | resp (status : Nat) (text : String)
deriving DecidableEq, Repr

/-- The external world as seen while handling one document. -/
structure DocEnv where
  post : PostOutcome
  fetch : GetOutcome
deriving DecidableEq, Repr

/-- The three-way per-document outcome: skipped because the output file
already exists, success with the text written, or a counted failure. -/
inductive Outcome where
  | skipped
  | success (text : String)
  | failure
deriving DecidableEq, Repr

/-- Observable events of a run: directory creation, per-document progress
and skip notices, HTTP requests with their timeouts, file writes, success
and failure log lines, and the final summary. -/
inductive Event where
  | mkdirOut
  | logProcessing (stem : String)
  | logSkipped (stem : String)
  | reqPost (url : String) (timeout : Nat)
  | reqGet (url : String) (timeout : Nat)
  | fileWrite (name : String) (content : String)
  | logSuccess (name : String)
  | logFailure
  | logSummary (succ fail : Nat)
deriving DecidableEq, Repr

/-- The output directory: an association list from file name to content;
the most recent write for a name shadows earlier entries. -/
abbrev OutFS := List (String × String)

/-- `target_file.exists()` (source line 51). -/
def fsExists (fs : OutFS) (name : String) : Bool :=
  fs.any (fun p => p.1 == name)

/-- `open(target_file, 'w').write(content)` (source lines 108–109). -/
def fsWrite (fs : OutFS) (name content : String) : OutFS :=
  (name, content) :: fs

/-- The content of a file in the output directory, when present. -/
def fsGet (fs : OutFS) (name : String) : Option String :=
  (fs.find? (fun p => p.1 == name)).map (fun p => p.2)

/-- The output file name for a source stem: `pdf_file.stem + '.md'`
(source line 49). -/
def mdName (stem : String) : String := stem ++ ".md"

/-- The content-resolution step of a `success:true` response body (source
lines 86–100): take the inline `markdownContent` unless it is falsy (absent
or the empty string, line 89); in that case, when a truthy `markdownUrl` is
present, GET it with timeout 60 (line 94) and use its text when the GET
returns status 200; any other outcome of the fetch leaves the content
falsy.  Returns the resulting content (with the empty string standing for
every falsy value) and the request events issued. -/
def contentOf (env : DocEnv) (d : RespData) : String × List Event :=
  if d.markdownContent.getD "" == "" then
    match d.markdownUrl with
    | some url =>
      if url == "" then ("", [])
      else
        match env.fetch with
        | .exn => ("", [Event.reqGet url GET_TIMEOUT])
        | .resp gst text =>
            (if gst == 200 then text else "", [Event.reqGet url GET_TIMEOUT])
    | none => ("", [])
  else (d.markdownContent.getD "", [])

/-- One loop iteration of `convert_pdf_to_md` for the document with the
given stem (source lines 46–131), given the environment for this document
and the current output filesystem.  Returns the outcome, the events of the
iteration, and the updated filesystem.

Mirrors the source: the skip guard tests only existence of the target file
(lines 48–55); otherwise the POST is submitted once with timeout 600
(line 79); the response is accepted only when `status_code == 200`
(line 82); on `success` the content is resolved by `contentOf`
(lines 86–100); a final falsy content is a failure (lines 113–115);
otherwise the text is written to `<stem>.md` and the success counter will
be bumped (lines 102–112). -/
def processDoc (env : DocEnv) (fs : OutFS) (stem : String) :
    Outcome × List Event × OutFS :=
  if fsExists fs (mdName stem) then
    (.skipped, [.logProcessing stem, .logSkipped stem], fs)
  else
    match env.post with
    | .connError =>
        (.failure, [.logProcessing stem, .reqPost API_URL POST_TIMEOUT, .logFailure], fs)
    | .otherExn =>
        (.failure, [.logProcessing stem, .reqPost API_URL POST_TIMEOUT, .logFailure], fs)
    | .resp status _bodyText body =>
      if status == 200 then
        match body with
        | none =>
            (.failure, [.logProcessing stem, .reqPost API_URL POST_TIMEOUT, .logFailure], fs)
        | some result =>
          if result.success then
            match result.data with
            | none =>
                (.failure, [.logProcessing stem, .reqPost API_URL POST_TIMEOUT, .logFailure], fs)
            | some d =>
              if (contentOf env d).1 == "" then
                (.failure,
                 [.logProcessing stem, .reqPost API_URL POST_TIMEOUT] ++ (contentOf env d).2
                   ++ [.logFailure], fs)
              else
                (.success (contentOf env d).1,
                 [.logProcessing stem, .reqPost API_URL POST_TIMEOUT] ++ (contentOf env d).2
                   ++ [.fileWrite (mdName stem) (contentOf env d).1,
                       .logSuccess (mdName stem)],
                 fsWrite fs (mdName stem) (contentOf env d).1)
          else
            (.failure, [.logProcessing stem, .reqPost API_URL POST_TIMEOUT, .logFailure], fs)
      else
        (.failure, [.logProcessing stem, .reqPost API_URL POST_TIMEOUT, .logFailure], fs)

/-- Success-counter increment contributed by an outcome (source line 112). -/
def outSucc : Outcome → Nat
  | .success _ => 1
  | _ => 0

/-- Failure-counter increment contributed by an outcome
(source lines 115, 119, 123, 128, 131). -/
def outFail : Outcome → Nat
  | .failure => 1
  | _ => 0

/-- Running state of the loop: the two counters, the output filesystem and
the event trace so far. -/
structure LoopState where
  succ : Nat
  fail : Nat
  fs : OutFS
  trace : List Event
deriving DecidableEq, Repr

/-- One step of the loop: process a document and fold its effects into the
state. -/
def step (env : String → DocEnv) (st : LoopState) (stem : String) : LoopState :=
  let r := processDoc (env stem) st.fs stem
  { succ := st.succ + outSucc r.1
    fail := st.fail + outFail r.1
    fs := r.2.2
    trace := st.trace ++ r.2.1 }

/-- The `for` loop over the enumerated PDF files (source lines 45–131). -/
def runLoop (env : String → DocEnv) (st : LoopState) (files : List String) : LoopState :=
  files.foldl (step env) st

/-- Static configuration and filesystem preconditions of one run: whether
the output directory already exists, whether `mkdir` would succeed if
attempted, whether the input directory exists, and the stems of the PDF
files `glob('*.pdf')` enumerates, in listing order. -/
structure Config where
  outputDirExists : Bool
  mkdirOk : Bool
  inputDirExists : Bool
  pdfFiles : List String
deriving DecidableEq, Repr

/-- How a run ends: early return on `mkdir` failure (source line 24), on a
missing input directory (line 30), on an empty file list (line 36), or
normal completion of the loop with the final counter values. -/
inductive RunExit where
  | mkdirFailed
  | inputMissing
  | noPdfFiles
  | completed (succ fail : Nat)
deriving DecidableEq, Repr

/-- Result of one run: the exit kind, the full event trace, and the final
output filesystem. -/
structure RunResult where
  exit : RunExit
  trace : List Event
  fs : OutFS
deriving DecidableEq, Repr

/-- The events of step 1 (ensure the output directory, source lines 16–24)
on the non-aborting paths: a creation event exactly when the directory was
absent (and `mkdir` succeeded). -/
def initTrace (cfg : Config) : List Event :=
  if cfg.outputDirExists then [] else [.mkdirOut]

/-- The whole of `convert_pdf_to_md` (source lines 15–139).  Step 1 ensures
the output directory (created before anything else when absent; failure
aborts).  Step 2 checks the input directory and returns early when missing.
The empty enumeration returns early.  Otherwise the loop runs and the final
summary with both counters is printed (lines 133–139). -/
def convert_pdf_to_md (cfg : Config) (env : String → DocEnv) (fs0 : OutFS) :
    RunResult :=
  if !cfg.outputDirExists && !cfg.mkdirOk then
    { exit := .mkdirFailed, trace := [], fs := fs0 }
  else if !cfg.inputDirExists then
    { exit := .inputMissing, trace := initTrace cfg, fs := fs0 }
  else if cfg.pdfFiles.isEmpty then
    { exit := .noPdfFiles, trace := initTrace cfg, fs := fs0 }
  else
    let st := runLoop env { succ := 0, fail := 0, fs := fs0, trace := initTrace cfg }
        cfg.pdfFiles
    { exit := .completed st.succ st.fail
      trace := st.trace ++ [.logSummary st.succ st.fail]
      fs := st.fs }

/-- Is an event the final summary line? -/
def isSummary : Event → Bool
  | .logSummary _ _ => true
  | _ => false

/-- Is an event a conversion POST submission? -/
def isPost : Event → Bool
  | .reqPost _ _ => true
  | _ => false

/-- Is an event a per-document progress line (printed once per enumerated
document, source line 46)? -/
def isProcessing : Event → Bool
  | .logProcessing _ => true
  | _ => false

/-- Is an event a skip notice (source line 52)? -/
def isSkip : Event → Bool
  | .logSkipped _ => true
  | _ => false

/-- Is an event a secondary GET request? -/
def isGet : Event → Bool
  | .reqGet _ _ => true
  | _ => false

/-- Is an event a file write? -/
def isWrite : Event → Bool
  | .fileWrite _ _ => true
  | _ => false

/-! ### Concrete test fixtures -/

/-- An empty loop state over an empty output directory. -/
def st0 : LoopState := { succ := 0, fail := 0, fs := [], trace := [] }

/-- An environment whose conversion service always answers 200 with
`success:true` and inline content `"hello"`. -/
def envInline : String → DocEnv :=
  fun _ => ⟨.resp 200 "" (some ⟨true, some ⟨some "hello", none⟩⟩), .exn⟩

/-- An environment whose conversion service is unreachable. -/
def envConn : String → DocEnv :=
  fun _ => ⟨.connError, .exn⟩

/-- An environment answering 200 with `success:true`, an empty inline
`markdownContent` and a `markdownUrl` whose GET returns 200 with `"X"`. -/
def envUrl : String → DocEnv :=
  fun _ => ⟨.resp 200 "" (some ⟨true, some ⟨some "", some "http://u"⟩⟩), .resp 200 "X"⟩

/-- An environment answering 200 with `success:true`, inline content the
empty string, and no `markdownUrl`. -/
def envEmptyInline : String → DocEnv :=
  fun _ => ⟨.resp 200 "" (some ⟨true, some ⟨some "", none⟩⟩), .exn⟩

/-! ### Basic lemmas about the filesystem model and the per-document step -/

theorem mdName_inj {s t : String} (h : mdName s = mdName t) : s = t := by
  have h2 : (s ++ ".md").data = (t ++ ".md").data := congrArg String.data h
  rw [String.data_append, String.data_append] at h2
  have h3 : s.data = t.data := (List.append_inj' h2 rfl).1
  cases s
  cases t
  simp_all

theorem fsExists_write (fs : OutFS) (n c k : String) :
    fsExists (fsWrite fs n c) k = ((n == k) || fsExists fs k) := by
  simp [fsExists, fsWrite]

/-- The events of the content resolution are at most one secondary GET. -/
theorem contentOf_events (env : DocEnv) (d : RespData) :
    (contentOf env d).2 = [] ∨
      ∃ url, (contentOf env d).2 = [Event.reqGet url GET_TIMEOUT] := by
  rcases env with ⟨post, fetch⟩
  rcases d with ⟨mc, mu⟩
  unfold contentOf
  by_cases hin : (mc.getD "" == "") = true
  · rcases mu with _ | url
    · simp [hin]
    · by_cases hu : (url == "") = true
      · simp [hin, hu]
      · rcases fetch with _ | ⟨gst, text⟩ <;> simp [hin, hu]
  · simp [hin]

/-- A document whose output file already exists is skipped outright
(source lines 48–55). -/
theorem processDoc_skip (env : DocEnv) {fs : OutFS} {stem : String}
    (h : fsExists fs (mdName stem) = true) :
    processDoc env fs stem =
      (.skipped, [.logProcessing stem, .logSkipped stem], fs) := by
  simp [processDoc, h]

/-- Shape of a non-skipped iteration: one progress line and exactly one
POST, followed by events that are neither POSTs, progress lines, skip
notices nor summaries; the outcome is either a counted failure leaving the
filesystem unchanged, or a success writing the output file. -/
theorem processDoc_shape (env : DocEnv) (fs : OutFS) (stem : String)
    (h : fsExists fs (mdName stem) = false) :
    ∃ evs : List Event,
      (processDoc env fs stem).2.1 =
        [Event.logProcessing stem, Event.reqPost API_URL POST_TIMEOUT] ++ evs ∧
      (∀ e ∈ evs, isPost e = false ∧ isProcessing e = false ∧ isSkip e = false ∧
        isSummary e = false) ∧
      (((processDoc env fs stem).1 = .failure ∧ (processDoc env fs stem).2.2 = fs) ∨
       (∃ c, (processDoc env fs stem).1 = .success c ∧
         (processDoc env fs stem).2.2 = fsWrite fs (mdName stem) c)) := by
  rcases env with ⟨post, fetch⟩
  rcases post with _ | _ | ⟨status, bt, body⟩
  · exact ⟨[.logFailure], by simp [processDoc, h],
      by simp [isPost, isProcessing, isSkip, isSummary],
      Or.inl ⟨by simp [processDoc, h], by simp [processDoc, h]⟩⟩
  · exact ⟨[.logFailure], by simp [processDoc, h],
      by simp [isPost, isProcessing, isSkip, isSummary],
      Or.inl ⟨by simp [processDoc, h], by simp [processDoc, h]⟩⟩
  · by_cases hs : (status == 200) = true
    · rcases body with _ | ⟨succflag, data⟩
      · exact ⟨[.logFailure], by simp [processDoc, h, hs],
          by simp [isPost, isProcessing, isSkip, isSummary],
          Or.inl ⟨by simp [processDoc, h, hs], by simp [processDoc, h, hs]⟩⟩
      · cases succflag
        · exact ⟨[.logFailure], by simp [processDoc, h, hs],
            by simp [isPost, isProcessing, isSkip, isSummary],
            Or.inl ⟨by simp [processDoc, h, hs], by simp [processDoc, h, hs]⟩⟩
        · rcases data with _ | d
          · exact ⟨[.logFailure], by simp [processDoc, h, hs],
              by simp [isPost, isProcessing, isSkip, isSummary],
              Or.inl ⟨by simp [processDoc, h, hs], by simp [processDoc, h, hs]⟩⟩
          · by_cases hc :
              ((contentOf ⟨.resp status bt (some ⟨true, some d⟩), fetch⟩ d).1 == "") = true
            · refine ⟨(contentOf ⟨.resp status bt (some ⟨true, some d⟩), fetch⟩ d).2
                  ++ [.logFailure], ?_, ?_,
                Or.inl ⟨by simp [processDoc, h, hs, hc], by simp [processDoc, h, hs, hc]⟩⟩
              · simp [processDoc, h, hs, hc]
              · rcases contentOf_events ⟨.resp status bt (some ⟨true, some d⟩), fetch⟩ d with
                  hev | ⟨url, hev⟩ <;>
                  simp [hev, isPost, isProcessing, isSkip, isSummary]
            · refine ⟨(contentOf ⟨.resp status bt (some ⟨true, some d⟩), fetch⟩ d).2
                  ++ [.fileWrite (mdName stem)
                        (contentOf ⟨.resp status bt (some ⟨true, some d⟩), fetch⟩ d).1,
                      .logSuccess (mdName stem)], ?_, ?_,
                Or.inr ⟨(contentOf ⟨.resp status bt (some ⟨true, some d⟩), fetch⟩ d).1,
                  by simp [processDoc, h, hs, hc], by simp [processDoc, h, hs, hc]⟩⟩
              · simp [processDoc, h, hs, hc]
              · rcases contentOf_events ⟨.resp status bt (some ⟨true, some d⟩), fetch⟩ d with
                  hev | ⟨url, hev⟩ <;>
                  simp [hev, isPost, isProcessing, isSkip, isSummary]
    · exact ⟨[.logFailure], by simp [processDoc, h, hs],
        by simp [isPost, isProcessing, isSkip, isSummary],
        Or.inl ⟨by simp [processDoc, h, hs], by simp [processDoc, h, hs]⟩⟩

/-! ### Step-level counting and frame lemmas -/

theorem step_processing_count (env : String → DocEnv) (st : LoopState) (s : String) :
    (step env st s).trace.countP isProcessing = st.trace.countP isProcessing + 1 := by
  by_cases hg : fsExists st.fs (mdName s) = true
  · simp [step, processDoc_skip (env s) hg, List.countP_append, isProcessing,
      List.countP_cons]
  · obtain ⟨evs, hevs, hprops, _⟩ :=
      processDoc_shape (env s) st.fs s (by simpa using hg)
    have hzero : evs.countP isProcessing = 0 :=
      List.countP_eq_zero.mpr (fun e he => by simp [(hprops e he).2.1])
    simp [step, hevs, List.countP_append, hzero, isProcessing, List.countP_cons]

theorem step_summary_count (env : String → DocEnv) (st : LoopState) (s : String) :
    (step env st s).trace.countP isSummary = st.trace.countP isSummary := by
  by_cases hg : fsExists st.fs (mdName s) = true
  · simp [step, processDoc_skip (env s) hg, List.countP_append, isSummary,
      List.countP_cons]
  · obtain ⟨evs, hevs, hprops, _⟩ :=
      processDoc_shape (env s) st.fs s (by simpa using hg)
    have hzero : evs.countP isSummary = 0 :=
      List.countP_eq_zero.mpr (fun e he => by simp [(hprops e he).2.2.2])
    simp [step, hevs, List.countP_append, hzero, isSummary, List.countP_cons]

theorem step_post_count (env : String → DocEnv) (st : LoopState) (s : String) :
    (step env st s).trace.countP isPost =
      st.trace.countP isPost + (if fsExists st.fs (mdName s) then 0 else 1) := by
  by_cases hg : fsExists st.fs (mdName s) = true
  · simp [step, processDoc_skip (env s) hg, List.countP_append, isPost, hg,
      List.countP_cons]
  · obtain ⟨evs, hevs, hprops, _⟩ :=
      processDoc_shape (env s) st.fs s (by simpa using hg)
    have hzero : evs.countP isPost = 0 :=
      List.countP_eq_zero.mpr (fun e he => by simp [(hprops e he).1])
    simp [step, hevs, List.countP_append, hzero, isPost, hg, List.countP_cons]

theorem step_skip_count (env : String → DocEnv) (st : LoopState) (s : String) :
    (step env st s).trace.countP isSkip =
      st.trace.countP isSkip + (if fsExists st.fs (mdName s) then 1 else 0) := by
  by_cases hg : fsExists st.fs (mdName s) = true
  · simp [step, processDoc_skip (env s) hg, List.countP_append, isSkip, hg,
      List.countP_cons]
  · obtain ⟨evs, hevs, hprops, _⟩ :=
      processDoc_shape (env s) st.fs s (by simpa using hg)
    have hzero : evs.countP isSkip = 0 :=
      List.countP_eq_zero.mpr (fun e he => by simp [(hprops e he).2.2.1])
    simp [step, hevs, List.countP_append, hzero, isSkip, hg, List.countP_cons]

theorem step_fs_mono (env : String → DocEnv) (st : LoopState) (s k : String)
    (h : fsExists st.fs k = true) : fsExists (step env st s).fs k = true := by
  by_cases hg : fsExists st.fs (mdName s) = true
  · simp [step, processDoc_skip (env s) hg, h]
  · obtain ⟨_, _, _, hout⟩ := processDoc_shape (env s) st.fs s (by simpa using hg)
    rcases hout with ⟨_, hfs⟩ | ⟨c, _, hfs⟩
    · simp [step, hfs, h]
    · simp [step, hfs, fsExists_write, h]

theorem step_fs_frame (env : String → DocEnv) (st : LoopState) (s k : String)
    (hk : k ≠ mdName s) : fsExists (step env st s).fs k = fsExists st.fs k := by
  by_cases hg : fsExists st.fs (mdName s) = true
  · simp [step, processDoc_skip (env s) hg]
  · obtain ⟨_, _, _, hout⟩ := processDoc_shape (env s) st.fs s (by simpa using hg)
    rcases hout with ⟨_, hfs⟩ | ⟨c, _, hfs⟩
    · simp [step, hfs]
    · have : (mdName s == k) = false := by
        simp only [beq_eq_false_iff_ne, ne_eq]
        exact fun he => hk he.symm
      simp [step, hfs, fsExists_write, this]

theorem step_succ_le (env : String → DocEnv) (st : LoopState) (s : String) :
    (step env st s).succ ≤ st.succ + 1 := by
  have : outSucc (processDoc (env s) st.fs s).1 ≤ 1 := by
    rcases (processDoc (env s) st.fs s).1 <;> simp [outSucc]
  simp only [step]
  omega

theorem step_succ_full (env : String → DocEnv) (st : LoopState) (s : String)
    (h : (step env st s).succ = st.succ + 1) :
    fsExists (step env st s).fs (mdName s) = true := by
  by_cases hg : fsExists st.fs (mdName s) = true
  · exact step_fs_mono env st s (mdName s) hg
  · obtain ⟨_, _, _, hout⟩ := processDoc_shape (env s) st.fs s (by simpa using hg)
    rcases hout with ⟨hfail, hfs⟩ | ⟨c, _, hfs⟩
    · exfalso
      simp [step, hfail, outSucc] at h
    · simp [step, hfs, fsExists_write]

/-- A skipped step changes only the trace, by the progress and skip lines. -/
theorem step_skip_eq (env : String → DocEnv) (st : LoopState) (s : String)
    (h : fsExists st.fs (mdName s) = true) :
    step env st s =
      { st with trace := st.trace ++ [.logProcessing s, .logSkipped s] } := by
  simp [step, processDoc_skip (env s) h, outSucc, outFail]

/-! ### Loop-level lemmas -/

theorem runLoop_cons (env : String → DocEnv) (st : LoopState) (f : String)
    (rest : List String) :
    runLoop env st (f :: rest) = runLoop env (step env st f) rest := rfl

/-- Every enumerated document gets exactly one progress line: the loop
never aborts before the end of the listing. -/
theorem runLoop_processing_count (env : String → DocEnv) (files : List String) :
    ∀ st : LoopState, (runLoop env st files).trace.countP isProcessing =
      st.trace.countP isProcessing + files.length := by
  induction files with
  | nil => intro st; simp [runLoop]
  | cons f rest ih =>
    intro st
    rw [runLoop_cons, ih, step_processing_count]
    simp
    omega

/-- The loop itself never prints the final summary line. -/
theorem runLoop_summary_count (env : String → DocEnv) (files : List String) :
    ∀ st : LoopState, (runLoop env st files).trace.countP isSummary =
      st.trace.countP isSummary := by
  induction files with
  | nil => intro st; simp [runLoop]
  | cons f rest ih =>
    intro st
    rw [runLoop_cons, ih, step_summary_count]

/-- Output files present before the loop are still present after it. -/
theorem runLoop_fs_mono (env : String → DocEnv) (files : List String) :
    ∀ (st : LoopState) (k : String), fsExists st.fs k = true →
      fsExists (runLoop env st files).fs k = true := by
  induction files with
  | nil => intro st k h; simpa [runLoop] using h
  | cons f rest ih =>
    intro st k h
    rw [runLoop_cons]
    exact ih _ k (step_fs_mono env st f k h)

theorem runLoop_succ_le (env : String → DocEnv) (files : List String) :
    ∀ st : LoopState, (runLoop env st files).succ ≤ st.succ + files.length := by
  induction files with
  | nil => intro st; simp [runLoop]
  | cons f rest ih =>
    intro st
    rw [runLoop_cons]
    have h1 := ih (step env st f)
    have h2 := step_succ_le env st f
    simp only [List.length_cons]
    omega

/-- When every document of the list succeeded, every document's output
file exists afterwards. -/
theorem runLoop_all_success (env : String → DocEnv) (files : List String) :
    ∀ st : LoopState,
      (runLoop env st files).succ = st.succ + files.length →
      ∀ s ∈ files, fsExists (runLoop env st files).fs (mdName s) = true := by
  induction files with
  | nil => intro st _ s hs; simp at hs
  | cons f rest ih =>
    intro st h s hs
    rw [runLoop_cons] at h ⊢
    have h1 := runLoop_succ_le env rest (step env st f)
    have h2 := step_succ_le env st f
    have hstep : (step env st f).succ = st.succ + 1 := by
      simp only [List.length_cons] at h
      omega
    rcases List.mem_cons.mp hs with rfl | hs
    · exact runLoop_fs_mono env rest (step env st s) (mdName s)
        (step_succ_full env st s hstep)
    · exact ih (step env st f) (by simp only [List.length_cons] at h; omega) s hs

/-- When every document's output file already exists, the loop only skips:
counters and filesystem are unchanged, no POST is issued, and one skip
notice appears per document. -/
theorem runLoop_all_skip (env : String → DocEnv) (files : List String) :
    ∀ st : LoopState,
      (∀ s ∈ files, fsExists st.fs (mdName s) = true) →
      (runLoop env st files).succ = st.succ ∧
      (runLoop env st files).fail = st.fail ∧
      (runLoop env st files).fs = st.fs ∧
      (runLoop env st files).trace.countP isPost = st.trace.countP isPost ∧
      (runLoop env st files).trace.countP isSkip =
        st.trace.countP isSkip + files.length := by
  induction files with
  | nil => intro st _; simp [runLoop]
  | cons f rest ih =>
    intro st hall
    rw [runLoop_cons]
    have hf : fsExists st.fs (mdName f) = true := hall f (by simp)
    rw [step_skip_eq env st f hf]
    obtain ⟨i1, i2, i3, i4, i5⟩ :=
      ih { st with trace := st.trace ++ [.logProcessing f, .logSkipped f] }
        (fun s hs => hall s (by simp [hs]))
    refine ⟨i1, i2, i3, ?_, ?_⟩
    · rw [i4]
      simp [List.countP_append, isPost, List.countP_cons]
    · rw [i5]
      simp [List.countP_append, isSkip, List.countP_cons]
      omega

/-- Request accounting over one loop run on a duplicate-free listing: the
POSTs issued are exactly the documents without a pre-existing output file,
and the skip notices are exactly the documents with one. -/
theorem runLoop_counts (env : String → DocEnv) (files : List String) :
    ∀ st : LoopState, files.Nodup →
      (runLoop env st files).trace.countP isPost = st.trace.countP isPost +
        (files.filter (fun s => !fsExists st.fs (mdName s))).length ∧
      (runLoop env st files).trace.countP isSkip = st.trace.countP isSkip +
        (files.filter (fun s => fsExists st.fs (mdName s))).length := by
  induction files with
  | nil => intro st _; simp [runLoop]
  | cons f rest ih =>
    intro st hnd
    have hf : f ∉ rest := (List.nodup_cons.mp hnd).1
    obtain ⟨ih1, ih2⟩ := ih (step env st f) (List.nodup_cons.mp hnd).2
    have hfix : ∀ s ∈ rest,
        fsExists (step env st f).fs (mdName s) = fsExists st.fs (mdName s) := by
      intro s hs
      refine step_fs_frame env st f (mdName s) (fun he => hf ?_)
      rw [← mdName_inj he]
      exact hs
    have hfilter1 : rest.filter (fun s => !fsExists (step env st f).fs (mdName s)) =
        rest.filter (fun s => !fsExists st.fs (mdName s)) :=
      List.filter_congr (fun s hs => by rw [hfix s hs])
    have hfilter2 : rest.filter (fun s => fsExists (step env st f).fs (mdName s)) =
        rest.filter (fun s => fsExists st.fs (mdName s)) :=
      List.filter_congr (fun s hs => by rw [hfix s hs])
    rw [runLoop_cons]
    constructor
    · rw [ih1, hfilter1, step_post_count, List.filter_cons]
      by_cases hg : fsExists st.fs (mdName f) = true
      · simp [hg]
      · simp [hg]
        omega
    · rw [ih2, hfilter2, step_skip_count, List.filter_cons]
      by_cases hg : fsExists st.fs (mdName f) = true
      · simp [hg]
        omega
      · simp [hg]

/-! ### Run-level path lemmas -/

theorem initTrace_countP (cfg : Config) (p : Event → Bool) (h : p .mkdirOut = false) :
    (initTrace cfg).countP p = 0 := by
  unfold initTrace
  split <;> simp [h]

theorem run_mkdirFailed (cfg : Config) (env : String → DocEnv) (fs0 : OutFS)
    (h1 : cfg.outputDirExists = false) (h2 : cfg.mkdirOk = false) :
    convert_pdf_to_md cfg env fs0 =
      { exit := .mkdirFailed, trace := [], fs := fs0 } := by
  simp [convert_pdf_to_md, h1, h2]

theorem run_inputMissing (cfg : Config) (env : String → DocEnv) (fs0 : OutFS)
    (hout : (cfg.outputDirExists || cfg.mkdirOk) = true)
    (hin : cfg.inputDirExists = false) :
    convert_pdf_to_md cfg env fs0 =
      { exit := .inputMissing, trace := initTrace cfg, fs := fs0 } := by
  have hcond : (!cfg.outputDirExists && !cfg.mkdirOk) = false := by
    rcases cfg with ⟨o, m, i, fl⟩
    cases o <;> cases m <;> simp_all
  simp [convert_pdf_to_md, hcond, hin]

theorem run_noPdfFiles (cfg : Config) (env : String → DocEnv) (fs0 : OutFS)
    (hout : (cfg.outputDirExists || cfg.mkdirOk) = true)
    (hin : cfg.inputDirExists = true)
    (hfiles : cfg.pdfFiles = []) :
    convert_pdf_to_md cfg env fs0 =
      { exit := .noPdfFiles, trace := initTrace cfg, fs := fs0 } := by
  have hcond : (!cfg.outputDirExists && !cfg.mkdirOk) = false := by
    rcases cfg with ⟨o, m, i, fl⟩
    cases o <;> cases m <;> simp_all
  simp [convert_pdf_to_md, hcond, hin, hfiles]

theorem run_normal (cfg : Config) (env : String → DocEnv) (fs0 : OutFS)
    (hout : (cfg.outputDirExists || cfg.mkdirOk) = true)
    (hin : cfg.inputDirExists = true)
    (hne : cfg.pdfFiles ≠ []) :
    convert_pdf_to_md cfg env fs0 =
      { exit := .completed
          (runLoop env ⟨0, 0, fs0, initTrace cfg⟩ cfg.pdfFiles).succ
          (runLoop env ⟨0, 0, fs0, initTrace cfg⟩ cfg.pdfFiles).fail
        trace := (runLoop env ⟨0, 0, fs0, initTrace cfg⟩ cfg.pdfFiles).trace ++
          [.logSummary (runLoop env ⟨0, 0, fs0, initTrace cfg⟩ cfg.pdfFiles).succ
            (runLoop env ⟨0, 0, fs0, initTrace cfg⟩ cfg.pdfFiles).fail]
        fs := (runLoop env ⟨0, 0, fs0, initTrace cfg⟩ cfg.pdfFiles).fs } := by
  have hcond : (!cfg.outputDirExists && !cfg.mkdirOk) = false := by
    rcases cfg with ⟨o, m, i, fl⟩
    cases o <;> cases m <;> simp_all
  have hemp : cfg.pdfFiles.isEmpty = false := by
    simpa [List.isEmpty_iff] using hne
  simp [convert_pdf_to_md, hcond, hin, hemp]

/-! ### The claims -/

/-- Claim C1, as stated, fails on the code: the source accepts only HTTP
status exactly 200 (`response.status_code == 200`, line 82), not every
2xx status.  At status 201 with `success:true` and inline text `"hello"`,
the iteration is counted as a failure and nothing is written. -/
theorem c1_counterexample :
    processDoc ⟨.resp 201 "" (some ⟨true, some ⟨some "hello", none⟩⟩), .exn⟩ [] "doc" =
      (.failure,
       [.logProcessing "doc", .reqPost API_URL POST_TIMEOUT, .logFailure], []) := by
  rfl

/-- Claim C1 (amended: the response status must be exactly 200, not any
2xx): for every document whose conversion request receives a response with
status 200, a body whose success flag is true, and nonempty inline
markdown text, the program writes that text to the output document named
source-stem plus `.md` and increments the success counter, leaving the
failure counter unchanged. -/
theorem c1_inline_write (env : String → DocEnv) (st : LoopState)
    (stem bt t : String) (u : Option String)
    (hguard : fsExists st.fs (mdName stem) = false)
    (hresp : (env stem).post = .resp 200 bt (some ⟨true, some ⟨some t, u⟩⟩))
    (ht : t ≠ "") :
    (step env st stem).succ = st.succ + 1 ∧
    (step env st stem).fail = st.fail ∧
    (step env st stem).fs = fsWrite st.fs (mdName stem) t ∧
    fsGet (step env st stem).fs (mdName stem) = some t ∧
    (step env st stem).trace = st.trace ++
      [.logProcessing stem, .reqPost API_URL POST_TIMEOUT,
       .fileWrite (mdName stem) t, .logSuccess (mdName stem)] := by
  have ht' : (t == "") = false := beq_eq_false_iff_ne.mpr ht
  refine ⟨?_, ?_, ?_, ?_, ?_⟩ <;>
    simp [step, processDoc, hguard, hresp, contentOf, ht', outSucc, outFail,
      fsGet, fsWrite]

/-- Witness for C1 at a concrete input: service answers 200 with inline
text `"hello"` for the single document `"doc"` over an empty output
directory. -/
theorem c1_witness :
    (step envInline st0 "doc").succ = st0.succ + 1 ∧
    (step envInline st0 "doc").fail = st0.fail ∧
    (step envInline st0 "doc").fs = fsWrite st0.fs (mdName "doc") "hello" ∧
    fsGet (step envInline st0 "doc").fs (mdName "doc") = some "hello" ∧
    (step envInline st0 "doc").trace = st0.trace ++
      [.logProcessing "doc", .reqPost API_URL POST_TIMEOUT,
       .fileWrite (mdName "doc") "hello", .logSuccess (mdName "doc")] :=
  c1_inline_write envInline st0 "doc" "" "hello" none rfl rfl (by decide)

/-- Claim C4: a document whose candidate output file already exists is
skipped; both counters and the filesystem are unchanged and only the
progress and skip notices are printed; the skip outcome is a constructor
distinct from both success and failure. -/
theorem c4_skip_frame (env : String → DocEnv) (st : LoopState) (stem : String)
    (h : fsExists st.fs (mdName stem) = true) :
    (step env st stem).succ = st.succ ∧
    (step env st stem).fail = st.fail ∧
    (step env st stem).fs = st.fs ∧
    (step env st stem).trace = st.trace ++ [.logProcessing stem, .logSkipped stem] ∧
    (processDoc (env stem) st.fs stem).1 = .skipped ∧
    (∀ t, Outcome.skipped ≠ Outcome.success t) ∧
    Outcome.skipped ≠ Outcome.failure := by
  rw [step_skip_eq env st stem h]
  refine ⟨rfl, rfl, rfl, rfl, ?_, ?_, ?_⟩
  · rw [processDoc_skip (env stem) h]
  · intro t h2
    cases h2
  · intro h2
    cases h2

/-- Witness for C4: the output `"doc.md"` already exists with content
`"old"`; the step over it changes nothing but the log. -/
theorem c4_witness :
    (step envConn ⟨0, 0, [("doc.md", "old")], []⟩ "doc").succ = 0 ∧
    (step envConn ⟨0, 0, [("doc.md", "old")], []⟩ "doc").fail = 0 ∧
    (step envConn ⟨0, 0, [("doc.md", "old")], []⟩ "doc").fs = [("doc.md", "old")] ∧
    (step envConn ⟨0, 0, [("doc.md", "old")], []⟩ "doc").trace =
      [] ++ [.logProcessing "doc", .logSkipped "doc"] ∧
    (processDoc (envConn "doc") [("doc.md", "old")] "doc").1 = .skipped ∧
    (∀ t, Outcome.skipped ≠ Outcome.success t) ∧
    Outcome.skipped ≠ Outcome.failure :=
  c4_skip_frame envConn ⟨0, 0, [("doc.md", "old")], []⟩ "doc" rfl

/-- Claim C10: the at-most-once guard tests only existence of the
candidate output file, never its content.  Whenever the output-named file
exists, the iteration issues no POST and no GET and leaves the filesystem
— in particular the existing file — unchanged; and for an output file of
arbitrary (even empty) content the iteration is a skip. -/
theorem c10_guard_existence_only (env : DocEnv) (fs fs' : OutFS)
    (stem content : String)
    (h : fsExists fs (mdName stem) = true) :
    (processDoc env fs stem).1 = .skipped ∧
    (processDoc env fs stem).2.2 = fs ∧
    (processDoc env fs stem).2.1.countP isPost = 0 ∧
    (processDoc env fs stem).2.1.countP isGet = 0 ∧
    (processDoc env (fsWrite fs' (mdName stem) content) stem).1 = .skipped := by
  have h2 : fsExists (fsWrite fs' (mdName stem) content) (mdName stem) = true := by
    simp [fsExists_write]
  rw [processDoc_skip env h, processDoc_skip env h2]
  exact ⟨rfl, rfl, by simp [isPost], by simp [isGet], rfl⟩

/-- Witness for C10: `"doc.md"` exists with the empty string as content,
and the iteration still skips without touching it. -/
theorem c10_witness :
    (processDoc (envConn "doc") [("doc.md", "")] "doc").1 = .skipped ∧
    (processDoc (envConn "doc") [("doc.md", "")] "doc").2.2 = [("doc.md", "")] ∧
    (processDoc (envConn "doc") [("doc.md", "")] "doc").2.1.countP isPost = 0 ∧
    (processDoc (envConn "doc") [("doc.md", "")] "doc").2.1.countP isGet = 0 ∧
    (processDoc (envConn "doc") (fsWrite [] (mdName "doc") "") "doc").1 = .skipped :=
  c10_guard_existence_only (envConn "doc") [("doc.md", "")] [] "doc" "" rfl

/-- Claim C7, as stated, fails on the code in two ways.  First, the
primary response must have status exactly 200, not any 2xx: at status 201
with `success:true`, no inline content and a `markdownUrl` whose GET would
return 200 with `"X"`, no GET is performed and the iteration fails.
Second, when the GET returns 200 with the empty string as text, the
iteration is a failure and no output file is written, rather than an
output document containing that text. -/
theorem c7_counterexample :
    (processDoc ⟨.resp 201 "" (some ⟨true, some ⟨none, some "http://u"⟩⟩), .resp 200 "X"⟩
        [] "doc" =
      (.failure,
       [.logProcessing "doc", .reqPost API_URL POST_TIMEOUT, .logFailure], [])) ∧
    (processDoc ⟨.resp 200 "" (some ⟨true, some ⟨none, some "http://u"⟩⟩), .resp 200 ""⟩
        [] "doc" =
      (.failure,
       [.logProcessing "doc", .reqPost API_URL POST_TIMEOUT,
        .reqGet "http://u" GET_TIMEOUT, .logFailure], [])) :=
  ⟨rfl, rfl⟩

/-- Claim C7 (amended: the primary response status must be exactly 200,
not any 2xx, and the fetched text must be nonempty): for every document
whose conversion response has status 200 with success true, an empty or
absent `markdownContent`, and a nonempty `markdownUrl`, the program
performs a GET on that URL with the 60-time-unit timeout, and when that
GET returns status 200 with nonempty text `t`, the output document for
that document contains exactly `t` and the success counter is
incremented. -/
theorem c7_url_fetch (env : String → DocEnv) (st : LoopState)
    (stem bt url t : String) (mc : Option String)
    (hguard : fsExists st.fs (mdName stem) = false)
    (hresp : (env stem).post = .resp 200 bt (some ⟨true, some ⟨mc, some url⟩⟩))
    (hmc : mc.getD "" = "")
    (hurl : url ≠ "")
    (hfetch : (env stem).fetch = .resp 200 t)
    (ht : t ≠ "") :
    (step env st stem).trace = st.trace ++
      [.logProcessing stem, .reqPost API_URL POST_TIMEOUT,
       .reqGet url GET_TIMEOUT, .fileWrite (mdName stem) t,
       .logSuccess (mdName stem)] ∧
    (step env st stem).succ = st.succ + 1 ∧
    (step env st stem).fail = st.fail ∧
    fsGet (step env st stem).fs (mdName stem) = some t := by
  have hmc' : (mc.getD "" == "") = true := by simp [hmc]
  have hurl' : (url == "") = false := beq_eq_false_iff_ne.mpr hurl
  have ht' : (t == "") = false := beq_eq_false_iff_ne.mpr ht
  refine ⟨?_, ?_, ?_, ?_⟩ <;>
    simp [step, processDoc, hguard, hresp, hfetch, contentOf, hmc', hurl', ht',
      outSucc, outFail, fsGet, fsWrite]

/-- Witness for C7 at a concrete input: empty inline content, URL
`"http://u"`, GET answering 200 with `"X"`. -/
theorem c7_witness :
    (step envUrl st0 "doc").trace = st0.trace ++
      [.logProcessing "doc", .reqPost API_URL POST_TIMEOUT,
       .reqGet "http://u" GET_TIMEOUT, .fileWrite (mdName "doc") "X",
       .logSuccess (mdName "doc")] ∧
    (step envUrl st0 "doc").succ = st0.succ + 1 ∧
    (step envUrl st0 "doc").fail = st0.fail ∧
    fsGet (step envUrl st0 "doc").fs (mdName "doc") = some "X" :=
  c7_url_fetch envUrl st0 "doc" "" "http://u" "X" (some "") rfl rfl rfl
    (by decide) rfl (by decide)

/-- Claim C8: every modelled exception during one document's handling — a
connection error, any other exception raised around the submission, a
malformed JSON body, or a missing `data` field — is caught inside the loop
iteration and counted as exactly one failure, the filesystem is untouched,
the loop proceeds with the remaining documents, and every enumerated
document still receives its progress line (the run is never aborted by a
single document's error). -/
theorem c8_exception_counted (env : String → DocEnv) (st : LoopState)
    (stem : String) (files : List String)
    (hguard : fsExists st.fs (mdName stem) = false)
    (hexn : (env stem).post = .connError ∨ (env stem).post = .otherExn ∨
      (∃ bt, (env stem).post = .resp 200 bt none) ∨
      (∃ bt, (env stem).post = .resp 200 bt (some ⟨true, none⟩))) :
    (step env st stem).fail = st.fail + 1 ∧
    (step env st stem).succ = st.succ ∧
    (step env st stem).fs = st.fs ∧
    runLoop env st (stem :: files) = runLoop env (step env st stem) files ∧
    (runLoop env st (stem :: files)).trace.countP isProcessing =
      st.trace.countP isProcessing + (files.length + 1) := by
  refine ⟨?_, ?_, ?_, runLoop_cons env st stem files, ?_⟩
  · rcases hexn with h | h | ⟨bt, h⟩ | ⟨bt, h⟩ <;>
      simp [step, processDoc, hguard, h, outFail]
  · rcases hexn with h | h | ⟨bt, h⟩ | ⟨bt, h⟩ <;>
      simp [step, processDoc, hguard, h, outSucc]
  · rcases hexn with h | h | ⟨bt, h⟩ | ⟨bt, h⟩ <;>
      simp [step, processDoc, hguard, h]
  · rw [runLoop_processing_count env (stem :: files) st]
    simp

/-- Witness for C8: an unreachable service for document `"doc"` followed
by one more document `"doc2"`. -/
theorem c8_witness :
    (step envConn st0 "doc").fail = st0.fail + 1 ∧
    (step envConn st0 "doc").succ = st0.succ ∧
    (step envConn st0 "doc").fs = st0.fs ∧
    runLoop envConn st0 ["doc", "doc2"] = runLoop envConn (step envConn st0 "doc") ["doc2"] ∧
    (runLoop envConn st0 ["doc", "doc2"]).trace.countP isProcessing =
      st0.trace.countP isProcessing + (["doc2"].length + 1) :=
  c8_exception_counted envConn st0 "doc" ["doc2"] rfl (Or.inl rfl)

/-- Claim C9: when the conversion text ultimately obtained for a document
is the empty string — returned inline as `markdownContent` with no URL to
try, or fetched with status 200 from `markdownUrl` — the document is
counted as one failure, no output file is written, and the filesystem is
unchanged, exactly as when no content is supplied at all. -/
theorem c9_empty_content_failure (env : String → DocEnv) (st : LoopState)
    (stem bt : String) (d : RespData)
    (hguard : fsExists st.fs (mdName stem) = false)
    (hresp : (env stem).post = .resp 200 bt (some ⟨true, some d⟩))
    (hempty : (d.markdownContent = some "" ∧ d.markdownUrl = none) ∨
      (d.markdownContent.getD "" = "" ∧
        ∃ url, d.markdownUrl = some url ∧ url ≠ "" ∧
          (env stem).fetch = .resp 200 "")) :
    (step env st stem).fail = st.fail + 1 ∧
    (step env st stem).succ = st.succ ∧
    (step env st stem).fs = st.fs ∧
    (step env st stem).trace.countP isWrite = st.trace.countP isWrite := by
  rcases hempty with ⟨hmc, hmu⟩ | ⟨hmc, url, hmu, hurl, hfetch⟩
  · have hmc' : (d.markdownContent.getD "" == "") = true := by simp [hmc]
    refine ⟨?_, ?_, ?_, ?_⟩ <;>
      simp [step, processDoc, hguard, hresp, contentOf, hmc', hmu, outSucc,
        outFail, List.countP_append, isWrite, List.countP_cons]
  · have hmc' : (d.markdownContent.getD "" == "") = true := by simp [hmc]
    have hurl' : (url == "") = false := beq_eq_false_iff_ne.mpr hurl
    refine ⟨?_, ?_, ?_, ?_⟩ <;>
      simp [step, processDoc, hguard, hresp, hfetch, contentOf, hmc', hmu, hurl',
        outSucc, outFail, List.countP_append, isWrite, List.countP_cons]

/-- Witness for C9: inline content is the empty string and no URL is
supplied; the document is a counted failure with nothing written. -/
theorem c9_witness :
    (step envEmptyInline st0 "doc").fail = st0.fail + 1 ∧
    (step envEmptyInline st0 "doc").succ = st0.succ ∧
    (step envEmptyInline st0 "doc").fs = st0.fs ∧
    (step envEmptyInline st0 "doc").trace.countP isWrite =
      st0.trace.countP isWrite :=
  c9_empty_content_failure envEmptyInline st0 "doc" "" ⟨some "", none⟩ rfl rfl
    (Or.inl ⟨rfl, rfl⟩)

/-- Claim C2, as stated, fails on the code: a run whose input directory is
missing returns early (source line 30) after printing a diagnostic, and
the final summary with the counters is never printed. -/
theorem c2_counterexample :
    (convert_pdf_to_md ⟨true, true, false, ["a"]⟩ envConn []).trace.countP
      isSummary = 0 ∧
    (convert_pdf_to_md ⟨true, true, false, ["a"]⟩ envConn []).exit =
      .inputMissing :=
  ⟨rfl, rfl⟩

/-- Claim C2 (amended: the process always completes, but the final summary
with the counters is printed exactly when the run reaches the conversion
loop — output directory available or created, input directory present,
nonempty file list; the early exits for a missing input directory, an
empty file list or an output-directory creation failure terminate without
printing the summary): the summary line appears in the trace exactly once
on normal completion and never otherwise, and the run ends in the
`completed` exit precisely under the same condition. -/
theorem c2_summary_on_normal_completion (cfg : Config) (env : String → DocEnv)
    (fs0 : OutFS) :
    ((convert_pdf_to_md cfg env fs0).trace.countP isSummary =
      if (cfg.outputDirExists || cfg.mkdirOk) && cfg.inputDirExists &&
          !cfg.pdfFiles.isEmpty then 1 else 0) ∧
    ((∃ s f, (convert_pdf_to_md cfg env fs0).exit = .completed s f) ↔
      ((cfg.outputDirExists || cfg.mkdirOk) && cfg.inputDirExists &&
        !cfg.pdfFiles.isEmpty) = true) := by
  by_cases h1 : (cfg.outputDirExists || cfg.mkdirOk) = true
  · by_cases h2 : cfg.inputDirExists = true
    · by_cases h3 : cfg.pdfFiles = []
      · have hemp : cfg.pdfFiles.isEmpty = true := by simp [h3]
        rw [run_noPdfFiles cfg env fs0 h1 h2 h3]
        constructor
        · rw [initTrace_countP cfg isSummary rfl]
          simp [hemp]
        · simp [hemp]
      · have hemp : cfg.pdfFiles.isEmpty = false := by
          simpa [List.isEmpty_iff] using h3
        rw [run_normal cfg env fs0 h1 h2 h3]
        constructor
        · rw [List.countP_append,
            runLoop_summary_count env cfg.pdfFiles ⟨0, 0, fs0, initTrace cfg⟩,
            initTrace_countP cfg isSummary rfl]
          simp [h1, h2, hemp, isSummary]
        · simp [h1, h2, hemp]
    · have h2' : cfg.inputDirExists = false := by
        cases hi : cfg.inputDirExists
        · rfl
        · exact absurd hi h2
      rw [run_inputMissing cfg env fs0 h1 h2']
      constructor
      · rw [initTrace_countP cfg isSummary rfl]
        simp [h2']
      · simp [h2']
  · have ho : cfg.outputDirExists = false := by
      cases hv : cfg.outputDirExists
      · rfl
      · exact absurd (by simp [hv]) h1
    have hm : cfg.mkdirOk = false := by
      cases hv : cfg.mkdirOk
      · rfl
      · exact absurd (by simp [hv]) h1
    rw [run_mkdirFailed cfg env fs0 ho hm]
    constructor
    · simp [ho, hm]
    · simp [ho, hm]

/-- Claim C3: running the batch a second time with no intervening
filesystem changes, when the first run succeeded for every enumerated
document, produces zero new successes and zero failures, issues no
conversion POST, reports every document as skipped, and leaves the output
filesystem unchanged. -/
theorem c3_idempotent_second_run (cfg : Config) (env1 env2 : String → DocEnv)
    (fs0 : OutFS)
    (hout : (cfg.outputDirExists || cfg.mkdirOk) = true)
    (hin : cfg.inputDirExists = true)
    (hne : cfg.pdfFiles ≠ [])
    (hall : (convert_pdf_to_md cfg env1 fs0).exit =
      .completed cfg.pdfFiles.length 0) :
    (convert_pdf_to_md cfg env2 (convert_pdf_to_md cfg env1 fs0).fs).exit =
      .completed 0 0 ∧
    (convert_pdf_to_md cfg env2
      (convert_pdf_to_md cfg env1 fs0).fs).trace.countP isPost = 0 ∧
    (convert_pdf_to_md cfg env2
      (convert_pdf_to_md cfg env1 fs0).fs).trace.countP isSkip =
      cfg.pdfFiles.length ∧
    (convert_pdf_to_md cfg env2 (convert_pdf_to_md cfg env1 fs0).fs).fs =
      (convert_pdf_to_md cfg env1 fs0).fs := by
  rw [run_normal cfg env1 fs0 hout hin hne] at hall ⊢
  simp only [RunExit.completed.injEq] at hall
  have hsucc : (runLoop env1 ⟨0, 0, fs0, initTrace cfg⟩ cfg.pdfFiles).succ =
      (0 : Nat) + cfg.pdfFiles.length := by
    rw [hall.1]
    omega
  have hexists := runLoop_all_success env1 cfg.pdfFiles
    ⟨0, 0, fs0, initTrace cfg⟩ hsucc
  rw [run_normal cfg env2 _ hout hin hne]
  obtain ⟨k1, k2, k3, k4, k5⟩ := runLoop_all_skip env2 cfg.pdfFiles
    ⟨0, 0, (runLoop env1 ⟨0, 0, fs0, initTrace cfg⟩ cfg.pdfFiles).fs, initTrace cfg⟩
    (fun s hs => hexists s hs)
  refine ⟨?_, ?_, ?_, ?_⟩
  · rw [k1, k2]
  · rw [List.countP_append, k4, initTrace_countP cfg isPost rfl]
    simp [isPost]
  · rw [List.countP_append, k5, initTrace_countP cfg isSkip rfl]
    simp [isSkip]
  · exact k3

/-- Witness for C3: two documents, a first run in which both conversions
succeed inline, and an arbitrary second environment. -/
theorem c3_witness :
    (convert_pdf_to_md ⟨true, true, true, ["a", "b"]⟩ envConn
      (convert_pdf_to_md ⟨true, true, true, ["a", "b"]⟩ envInline []).fs).exit =
      .completed 0 0 ∧
    (convert_pdf_to_md ⟨true, true, true, ["a", "b"]⟩ envConn
      (convert_pdf_to_md ⟨true, true, true, ["a", "b"]⟩ envInline
        []).fs).trace.countP isPost = 0 ∧
    (convert_pdf_to_md ⟨true, true, true, ["a", "b"]⟩ envConn
      (convert_pdf_to_md ⟨true, true, true, ["a", "b"]⟩ envInline
        []).fs).trace.countP isSkip =
      (Config.mk true true true ["a", "b"]).pdfFiles.length ∧
    (convert_pdf_to_md ⟨true, true, true, ["a", "b"]⟩ envConn
      (convert_pdf_to_md ⟨true, true, true, ["a", "b"]⟩ envInline []).fs).fs =
    (convert_pdf_to_md ⟨true, true, true, ["a", "b"]⟩ envInline []).fs :=
  c3_idempotent_second_run ⟨true, true, true, ["a", "b"]⟩ envInline envConn []
    rfl rfl (by decide) rfl

/-- Claim C5: over a duplicate-free listing of N files of which M already
have a corresponding output file, one run issues exactly N−M conversion
POSTs (one submission per non-skipped document, none repeated) and skips
exactly M documents. -/
theorem c5_attempt_accounting (cfg : Config) (env : String → DocEnv) (fs0 : OutFS)
    (hout : (cfg.outputDirExists || cfg.mkdirOk) = true)
    (hin : cfg.inputDirExists = true)
    (hnd : cfg.pdfFiles.Nodup) :
    (convert_pdf_to_md cfg env fs0).trace.countP isPost =
      cfg.pdfFiles.length -
        (cfg.pdfFiles.filter (fun s => fsExists fs0 (mdName s))).length ∧
    (convert_pdf_to_md cfg env fs0).trace.countP isSkip =
      (cfg.pdfFiles.filter (fun s => fsExists fs0 (mdName s))).length := by
  by_cases hne : cfg.pdfFiles = []
  · rw [run_noPdfFiles cfg env fs0 hout hin hne]
    rw [initTrace_countP cfg isPost rfl, initTrace_countP cfg isSkip rfl]
    simp [hne]
  · rw [run_normal cfg env fs0 hout hin hne]
    obtain ⟨h1, h2⟩ := runLoop_counts env cfg.pdfFiles ⟨0, 0, fs0, initTrace cfg⟩ hnd
    have hsplit := List.length_eq_length_filter_add
      (l := cfg.pdfFiles) (fun s => fsExists fs0 (mdName s))
    constructor
    · rw [List.countP_append, h1, initTrace_countP cfg isPost rfl]
      simp only [isSummary, List.countP_cons, List.countP_nil]
      simp [isPost]
      omega
    · rw [List.countP_append, h2, initTrace_countP cfg isSkip rfl]
      simp [isSkip]

/-- Witness for C5: two documents `"a"`, `"b"`, with `"b.md"` already
present: one POST and one skip. -/
theorem c5_witness :
    (convert_pdf_to_md ⟨true, true, true, ["a", "b"]⟩ envInline
      [("b.md", "old")]).trace.countP isPost =
      (Config.mk true true true ["a", "b"]).pdfFiles.length -
        ((Config.mk true true true ["a", "b"]).pdfFiles.filter
          (fun s => fsExists [("b.md", "old")] (mdName s))).length ∧
    (convert_pdf_to_md ⟨true, true, true, ["a", "b"]⟩ envInline
      [("b.md", "old")]).trace.countP isSkip =
      ((Config.mk true true true ["a", "b"]).pdfFiles.filter
        (fun s => fsExists [("b.md", "old")] (mdName s))).length :=
  c5_attempt_accounting ⟨true, true, true, ["a", "b"]⟩ envInline
    [("b.md", "old")] rfl rfl (by decide)

/-- Claim C6, as stated, fails on the code: the output directory is
ensured (and, when absent, created) before the input directory is checked
(source lines 16–30), so a run with a missing input directory and an
absent output directory does create the output directory. -/
theorem c6_counterexample :
    (convert_pdf_to_md ⟨false, true, false, ["a"]⟩ envConn []).trace =
      [.mkdirOut] ∧
    (convert_pdf_to_md ⟨false, true, false, ["a"]⟩ envConn []).exit =
      .inputMissing :=
  ⟨rfl, rfl⟩

/-- Claim C6 (amended: when the input location does not exist, the run
terminates before enumerating any files and zero documents are processed
with no conversion attempted and the output filesystem untouched; however
the output directory, ensured first, is created exactly when it was
absent — its creation is not suppressed by the missing input). -/
theorem c6_input_missing (cfg : Config) (env : String → DocEnv) (fs0 : OutFS)
    (hin : cfg.inputDirExists = false)
    (hout : (cfg.outputDirExists || cfg.mkdirOk) = true) :
    (convert_pdf_to_md cfg env fs0).exit = .inputMissing ∧
    (convert_pdf_to_md cfg env fs0).trace.countP isProcessing = 0 ∧
    (convert_pdf_to_md cfg env fs0).trace.countP isPost = 0 ∧
    (convert_pdf_to_md cfg env fs0).fs = fs0 ∧
    (convert_pdf_to_md cfg env fs0).trace.countP
        (fun e => e == Event.mkdirOut) =
      (if cfg.outputDirExists then 0 else 1) := by
  rw [run_inputMissing cfg env fs0 hout hin]
  refine ⟨rfl, ?_, ?_, rfl, ?_⟩
  · exact initTrace_countP cfg isProcessing rfl
  · exact initTrace_countP cfg isPost rfl
  · unfold initTrace
    split <;> simp

/-- Witness for C6: missing input directory, absent output directory that
can be created. -/
theorem c6_witness :
    (convert_pdf_to_md ⟨false, true, false, ["a"]⟩ envConn []).exit =
      .inputMissing ∧
    (convert_pdf_to_md ⟨false, true, false, ["a"]⟩ envConn []).trace.countP
      isProcessing = 0 ∧
    (convert_pdf_to_md ⟨false, true, false, ["a"]⟩ envConn []).trace.countP
      isPost = 0 ∧
    (convert_pdf_to_md ⟨false, true, false, ["a"]⟩ envConn []).fs = [] ∧
    (convert_pdf_to_md ⟨false, true, false, ["a"]⟩ envConn []).trace.countP
        (fun e => e == Event.mkdirOut) =
      (if (Config.mk false true false ["a"]).outputDirExists then 0 else 1) :=
  c6_input_missing ⟨false, true, false, ["a"]⟩ envConn [] rfl rfl

end BatchConvert
